import Mathlib

/-!
Verification of the tapkee dimensionality-reduction core:
the method dispatcher (`include/tapkee.hpp`, function `embed`) and the
PCA numeric primitives (`src/methods/pca.hpp`: `project`,
`compute_covariance_matrix`, `compute_centered_kernel_matrix`).

The embedding is shallow and exact: Eigen scalars (`DefaultScalarType`,
C++ `double`) become `ℚ`, dense vectors of dimension `d` become
`Fin d → ℚ`, dense matrices become `Fin m → Fin n → ℚ`, and the
dynamically-typed parameter map (`ParametersMap`, key to type-erased
value) becomes a function from the closed key enumeration to
`Option ParamValue`.  Exceptions become `Except` values.
-/

namespace Tapkee

/-- The closed method enumeration `TAPKEE_METHOD`: the nineteen variants
handled by the dispatch switch of `embed`, plus `UNKNOWN_METHOD`. -/
inductive TAPKEE_METHOD
  | KERNEL_LOCALLY_LINEAR_EMBEDDING
  | KERNEL_LOCAL_TANGENT_SPACE_ALIGNMENT
  | DIFFUSION_MAP
  | MULTIDIMENSIONAL_SCALING
  | LANDMARK_MULTIDIMENSIONAL_SCALING
  | ISOMAP
  | LANDMARK_ISOMAP
  | NEIGHBORHOOD_PRESERVING_EMBEDDING
  | LINEAR_LOCAL_TANGENT_SPACE_ALIGNMENT
  | HESSIAN_LOCALLY_LINEAR_EMBEDDING
  | LAPLACIAN_EIGENMAPS
  | LOCALITY_PRESERVING_PROJECTIONS
  | PCA
  | KERNEL_PCA
  | RANDOM_PROJECTION
  | STOCHASTIC_PROXIMITY_EMBEDDING
  | PASS_THRU
  | FACTOR_ANALYSIS
  | T_DISTRIBUTED_STOCHASTIC_NEIGHBOR_EMBEDDING
  | UNKNOWN_METHOD
  deriving DecidableEq

/-- The eigendecomposition backend enumeration (the two defaults that the
dispatcher's `PUT_DEFAULT` may choose between, depending on the
`TAPKEE_WITH_ARPACK` build flag). -/
inductive TAPKEE_EIGEN_EMBEDDING_METHOD
  | ARPACK
  | EIGEN_DENSE_SELFADJOINT_SOLVER
  deriving DecidableEq

/-- The neighbor-search backend enumeration (default chosen only when the
`TAPKEE_USE_LGPL_COVERTREE` build flag is on). -/
inductive TAPKEE_NEIGHBORS_METHOD
  | COVER_TREE
  | BRUTE_FORCE
  deriving DecidableEq

/-- The closed set of parameter keys (`TAPKEE_PARAMETERS`) that the
dispatcher itself reads or defaults. -/
inductive ParamKey
  | REDUCTION_METHOD
  | OUTPUT_FEATURE_VECTORS_ARE_COLUMNS
  | EIGENSHIFT
  | KLLE_TRACE_SHIFT
  | CHECK_CONNECTIVITY
  | EIGEN_EMBEDDING_METHOD
  | TARGET_DIMENSION
  | NEIGHBORS_METHOD
  | PROGRESS_FUNCTION
  | CANCEL_FUNCTION
  deriving DecidableEq

/-- A type-erased parameter value (the `any`-style values stored in the
C++ `ParametersMap`).  Progress and cancel function pointers are
modelled by their identity (a number). -/
inductive ParamValue
  | boolVal (b : Bool)
  | scalarVal (s : ℚ)
  | indexVal (n : ℕ)
  | methodVal (m : TAPKEE_METHOD)
  | eigenMethodVal (e : TAPKEE_EIGEN_EMBEDDING_METHOD)
  | neighborsMethodVal (e : TAPKEE_NEIGHBORS_METHOD)
  | progressVal (f : ℕ)
  | cancelVal (f : ℕ)
  deriving DecidableEq

/-- The parameter map: each key of the closed enumeration is either
absent or bound to one type-erased value. -/
abbrev ParametersMap := ParamKey → Option ParamValue

/-- The error taxonomy of the dispatcher: the exception classes named in
`embed` (`missed_parameter_error`, `wrong_parameter_type_error`,
`wrong_parameter_error`, `unsupported_method_error`,
`not_enough_memory_error`), plus `bad_any_cast`, the raw cast exception
of the `any` implementation which `embed` lets escape unwrapped
when a progress/cancel cast fails. -/
inductive TapkeeError
  | missed_parameter_error
  | wrong_parameter_type_error
  | wrong_parameter_error
  | unsupported_method_error
  | not_enough_memory_error
  | cancelled_exception
  | eigendecomposition_error
  | bad_any_cast
  deriving DecidableEq

/-- `parameters[KEY] = value`: bind `value` to key `k`, leaving every
other key unchanged. -/
def updateParam (p : ParametersMap) (k : ParamKey) (v : ParamValue) : ParametersMap :=
  fun k2 => if k2 = k then some v else p k2

/-- The `PUT_DEFAULT(KEY,TYPE,VALUE)` step of `embed`: write the default
only when the key is absent (`if (!parameters.count(KEY))`). -/
def putDefault (k : ParamKey) (v : ParamValue) (p : ParametersMap) : ParametersMap :=
  if (p k).isSome then p else updateParam p k v

/-- The `//// defaults` block of `embed`, lines 126–142 of
`include/tapkee.hpp`.  `withArpack` models the `TAPKEE_WITH_ARPACK`
build flag and `useCovertree` the `TAPKEE_USE_LGPL_COVERTREE` flag. -/
def applyDefaults (withArpack useCovertree : Bool) (p : ParametersMap) : ParametersMap :=
  let p1 := putDefault .OUTPUT_FEATURE_VECTORS_ARE_COLUMNS (.boolVal false) p
  let p2 := putDefault .EIGENSHIFT (.scalarVal (1 / 1000000000)) p1
  let p3 := putDefault .KLLE_TRACE_SHIFT (.scalarVal (1 / 1000)) p2
  let p4 := putDefault .CHECK_CONNECTIVITY (.boolVal true) p3
  let p5 := putDefault .EIGEN_EMBEDDING_METHOD
    (.eigenMethodVal (if withArpack then .ARPACK else .EIGEN_DENSE_SELFADJOINT_SOLVER)) p4
  let p6 := putDefault .TARGET_DIMENSION (.indexVal 2) p5
  if useCovertree then putDefault .NEIGHBORS_METHOD (.neighborsMethodVal .COVER_TREE) p6 else p6

/-- `parameters[REDUCTION_METHOD].cast<TAPKEE_METHOD>()`: succeeds only
when the stored value is of the method type. -/
def castMethod : ParamValue → Option TAPKEE_METHOD
  | .methodVal m => some m
  | _ => none

/-- `parameters[PROGRESS_FUNCTION].cast<void (*)(double)>()`. -/
def castProgress : ParamValue → Option ℕ
  | .progressVal f => some f
  | _ => none

/-- `parameters[CANCEL_FUNCTION].cast<bool (*)()>()`. -/
def castCancel : ParamValue → Option ℕ
  | .cancelVal f => some f
  | _ => none

/-- Reading the optional progress hook, lines 149–150 of `embed`: absent
means a null pointer; present with a value of the wrong type raises the
raw `bad_any_cast` (there is no surrounding try/catch there). -/
def readProgress (p : ParametersMap) : Except TapkeeError (Option ℕ) :=
  match p .PROGRESS_FUNCTION with
  | none => .ok none
  | some v =>
    match castProgress v with
    | none => .error .bad_any_cast
    | some f => .ok (some f)

/-- Reading the optional cancel hook, lines 151–152 of `embed`; same
unwrapped-cast behaviour as the progress hook. -/
def readCancel (p : ParametersMap) : Except TapkeeError (Option ℕ) :=
  match p .CANCEL_FUNCTION with
  | none => .ok none
  | some v =>
    match castCancel v with
    | none => .error .bad_any_cast
    | some f => .ok (some f)

/-- The dispatch switch of `embed`, lines 166–188: each of the nineteen
handled enumeration values routes to its implementation (modelled
abstractly as the chosen method, since the variant bodies are outside
the core); `UNKNOWN_METHOD` throws `wrong_parameter_error`. -/
def dispatchMethod (m : TAPKEE_METHOD) : Except TapkeeError TAPKEE_METHOD :=
  match m with
  | .UNKNOWN_METHOD => .error .wrong_parameter_error
  | m => .ok m

/-- The parameter-handling and dispatch phase of `embed`
(`include/tapkee.hpp`, lines 109–188), in source order: require
`REDUCTION_METHOD` (else `missed_parameter_error`); cast it inside a
try/catch translating a failed cast to `wrong_parameter_type_error`;
fill defaults; read the progress and cancel hooks (raw `bad_any_cast`
on type mismatch); dispatch on the method.  Success carries the chosen
method and the two optional hooks. -/
def embedFront (withArpack useCovertree : Bool) (parameters : ParametersMap) :
    Except TapkeeError (TAPKEE_METHOD × Option ℕ × Option ℕ) :=
  match parameters .REDUCTION_METHOD with
  | none => .error .missed_parameter_error
  | some v =>
    match castMethod v with
    | none => .error .wrong_parameter_type_error
    | some method =>
      let ps := applyDefaults withArpack useCovertree parameters
      match readProgress ps with
      | .error e => .error e
      | .ok pf =>
        match readCancel ps with
        | .error e => .error e
        | .ok cf =>
          match dispatchMethod method with
          | .error e => .error e
          | .ok m => .ok (m, pf, cf)

/-- A dense vector of dimension `d` (`DenseVector`), exact scalars. -/
abbrev Vec (d : ℕ) := Fin d → ℚ

/-- A dense `m × n` matrix (`DenseMatrix` / `DenseSymmetricMatrix`). -/
abbrev Mat (m n : ℕ) := Fin m → Fin n → ℚ

/-- The scaling factor `-1.0/(end-begin)` applied by
`compute_covariance_matrix` to the rank update with the accumulated
sum; `n` is the sequence length `end - begin`.  There is no emptiness
guard in the source, so the quotient is written exactly as there. -/
def covScale (n : ℕ) : ℚ := -1 / (n : ℚ)

/-- One iteration of the accumulation loop of
`compute_covariance_matrix` (lines 47–52 of `src/methods/pca.hpp`):
`sum += current_vector` and
`covariance_matrix.selfadjointView<Upper>().rankUpdate(current_vector, 1.0)`,
which adds `x i * x j` to every upper-triangle entry `i ≤ j` and leaves
the strict lower triangle untouched. -/
def covStep (d : ℕ) (acc : Vec d × Mat d d) (x : Vec d) : Vec d × Mat d d :=
  (fun i => acc.1 i + x i,
   fun i j => if i ≤ j then acc.2 i j + x i * x j else acc.2 i j)

/-- The whole accumulation loop of `compute_covariance_matrix`, started
from the zero sum and the zero matrix. -/
def covLoop (d : ℕ) (xs : List (Vec d)) : Vec d × Mat d d :=
  xs.foldl (covStep d) (fun _ => 0, fun _ _ => 0)

/-- `compute_covariance_matrix` (`src/methods/pca.hpp`, lines 37–56):
run the accumulation loop over the feature vectors delivered by the
callback, then apply
`covariance_matrix.selfadjointView<Upper>().rankUpdate(sum, -1.0/(end-begin))`,
again an upper-triangle-only update.  The data sequence and callback
are fused into the list `xs` of extracted feature vectors. -/
def compute_covariance_matrix (d : ℕ) (xs : List (Vec d)) : Mat d d :=
  fun i j =>
    if i ≤ j then
      (covLoop d xs).2 i j + covScale xs.length * ((covLoop d xs).1 i * (covLoop d xs).1 j)
    else (covLoop d xs).2 i j

/-- Reading a matrix whose upper triangle was accumulated as a
self-adjoint (symmetric) matrix, as every consumer of
`compute_covariance_matrix` does via `selfadjointView<Upper>`. -/
def readSym (d : ℕ) (M : Mat d d) : Mat d d :=
  fun i j => if i ≤ j then M i j else M j i

/-- The pairwise kernel fill of `compute_centered_kernel_matrix`
(lines 66–74): for each ordered index pair the kernel callback is
evaluated once with the lower index first (`j_iter` starts at
`i_iter`), and the value is mirrored into both entries. -/
def kernel_matrix (n : ℕ) (f : Fin n → Fin n → ℚ) : Mat n n :=
  fun i j => if i ≤ j then f i j else f j i

/-- `kernel_matrix.colwise().mean()` (line 76): the mean of column `j`. -/
def col_means (n : ℕ) (K : Mat n n) : Fin n → ℚ :=
  fun j => (∑ i, K i j) / (n : ℚ)

/-- `kernel_matrix.mean()` (line 77): the mean over all `n²` entries. -/
def grand_mean (n : ℕ) (K : Mat n n) : ℚ :=
  (∑ i, ∑ j, K i j) / ((n : ℚ) * (n : ℚ))

/-- `compute_centered_kernel_matrix` (`src/methods/pca.hpp`,
lines 58–83): fill the symmetric kernel matrix, then center it in
source order — `kernel_matrix.array() += grand_mean`, then
`kernel_matrix.colwise() -= col_means` (subtracting `col_means i` from
entry `(i, j)`), then `kernel_matrix.rowwise() -= col_means.transpose()`
(subtracting `col_means j`); both means are taken on the original
uncentered matrix before any update is applied. -/
def compute_centered_kernel_matrix (n : ℕ) (f : Fin n → Fin n → ℚ) : Mat n n :=
  fun i j =>
    kernel_matrix n f i j + grand_mean n (kernel_matrix n f)
      - col_means n (kernel_matrix n f) i - col_means n (kernel_matrix n f) j

/-- The observable outcome of a `project` call.  The source never
raises a dimension error: when the `dimension` argument disagrees with
the projection matrix's row count, the product
`projection_matrix.transpose()*current_vector` fails Eigen's run-time
size assertion and the process aborts, modelled by
`assertionFailure`.  `dimensionMismatchError` is listed as a possible
observable so that its absence from the code's behaviour is statable;
no branch of `projectRows` produces it. -/
inductive ProjectOutcome (c : ℕ)
  | embedding (rows : List (Vec c))
  | assertionFailure
  | dimensionMismatchError

/-- `project` (`src/methods/pca.hpp`, lines 16–35): for every item, the
callback writes its feature vector into a buffer of length `dimension`
(`dim` here), and the output row is
`projection_matrix.transpose() * current_vector`, i.e. row entry `j` is
`∑ i, P i j * v i`.  `P` is `r × c`; the product requires `dim = r`,
otherwise Eigen's assertion aborts.  Rows are produced one per item in
input order, and the projection artifact `P` is only read. -/
def projectRows (r c dim : ℕ) (P : Mat r c) (xs : List (Vec dim)) : ProjectOutcome c :=
  if h : dim = r then
    .embedding (xs.map (fun v => fun j => ∑ i, P i j * v (Fin.cast h.symm i)))
  else
    .assertionFailure

/-! ### Covariance matrix lemmas -/

lemma covFold_fst (d : ℕ) (xs : List (Vec d)) (acc : Vec d × Mat d d) (i : Fin d) :
    (xs.foldl (covStep d) acc).1 i = acc.1 i + (xs.map (fun x => x i)).sum := by
  induction xs generalizing acc with
  | nil => simp
  | cons x xs ih =>
    simp only [List.foldl_cons, List.map_cons, List.sum_cons]
    rw [ih]
    simp only [covStep]
    ring

lemma covFold_snd (d : ℕ) (xs : List (Vec d)) (acc : Vec d × Mat d d) (i j : Fin d)
    (hij : i ≤ j) :
    (xs.foldl (covStep d) acc).2 i j = acc.2 i j + (xs.map (fun x => x i * x j)).sum := by
  induction xs generalizing acc with
  | nil => simp
  | cons x xs ih =>
    simp only [List.foldl_cons, List.map_cons, List.sum_cons]
    rw [ih]
    simp only [covStep, if_pos hij]
    ring

lemma covLoop_fst (d : ℕ) (xs : List (Vec d)) (i : Fin d) :
    (covLoop d xs).1 i = (xs.map (fun x => x i)).sum := by
  unfold covLoop
  rw [covFold_fst]
  simp

lemma covLoop_snd (d : ℕ) (xs : List (Vec d)) (i j : Fin d) (hij : i ≤ j) :
    (covLoop d xs).2 i j = (xs.map (fun x => x i * x j)).sum := by
  unfold covLoop
  rw [covFold_snd _ _ _ _ _ hij]
  simp

lemma prodMapComm (d : ℕ) (xs : List (Vec d)) (i j : Fin d) :
    (xs.map (fun x => x j * x i)).sum = (xs.map (fun x => x i * x j)).sum := by
  have h : (fun (x : Vec d) => x j * x i) = fun x => x i * x j := by
    funext x
    ring
  rw [h]

lemma length_cast_ne_zero {α : Type} (xs : List α) (hxs : xs ≠ []) :
    (xs.length : ℚ) ≠ 0 := by
  have hpos : 0 < xs.length := List.length_pos.mpr hxs
  exact_mod_cast hpos.ne'

lemma readSym_cov (d : ℕ) (xs : List (Vec d)) (hxs : xs ≠ []) (i j : Fin d) :
    readSym d (compute_covariance_matrix d xs) i j
      = (xs.map (fun x => x i * x j)).sum
        - (1 / (xs.length : ℚ)) * ((xs.map (fun x => x i)).sum * (xs.map (fun x => x j)).sum) := by
  have hn : (xs.length : ℚ) ≠ 0 := length_cast_ne_zero xs hxs
  unfold readSym compute_covariance_matrix covScale
  by_cases hij : i ≤ j
  · rw [if_pos hij, if_pos hij, covLoop_snd _ _ _ _ hij, covLoop_fst, covLoop_fst]
    field_simp
    ring
  · have hji : j ≤ i := le_of_not_le hij
    rw [if_neg hij, if_pos hji, covLoop_snd _ _ _ _ hji, covLoop_fst, covLoop_fst]
    rw [prodMapComm]
    field_simp
    ring

lemma sum_map_of_all_eq {α : Type} (xs : List α) (v : α) (f : α → ℚ)
    (h : ∀ x ∈ xs, x = v) : (xs.map f).sum = (xs.length : ℚ) * f v := by
  induction xs with
  | nil => simp
  | cons y ys ih =>
    have hy : y = v := h y (by simp)
    have hys : ∀ x ∈ ys, x = v := fun x hx => h x (by simp [hx])
    simp only [List.map_cons, List.sum_cons, List.length_cons, ih hys, hy]
    push_cast
    ring

/-- Claim C1: for every non-empty sequence of feature vectors,
`compute_covariance_matrix`, read as symmetric, is the matrix
`C = Σ xᵢxᵢᵀ − (1/n)(Σxᵢ)(Σxᵢ)ᵀ`; it is symmetric; and on identical
feature vectors it is the zero matrix. -/
theorem C1_compute_covariance_matrix_correct (d : ℕ) (xs : List (Vec d)) (hxs : xs ≠ []) :
    (∀ i j, readSym d (compute_covariance_matrix d xs) i j
        = (xs.map (fun x => x i * x j)).sum
          - (1 / (xs.length : ℚ)) *
              ((xs.map (fun x => x i)).sum * (xs.map (fun x => x j)).sum))
    ∧ (∀ i j, readSym d (compute_covariance_matrix d xs) i j
        = readSym d (compute_covariance_matrix d xs) j i)
    ∧ (∀ v : Vec d, (∀ x ∈ xs, x = v) →
        ∀ i j, readSym d (compute_covariance_matrix d xs) i j = 0) := by
  have hn : (xs.length : ℚ) ≠ 0 := length_cast_ne_zero xs hxs
  refine ⟨fun i j => readSym_cov d xs hxs i j, fun i j => ?_, fun v hv i j => ?_⟩
  · rw [readSym_cov d xs hxs i j, readSym_cov d xs hxs j i, prodMapComm]
    ring
  · rw [readSym_cov d xs hxs i j,
      sum_map_of_all_eq xs v _ hv, sum_map_of_all_eq xs v _ hv, sum_map_of_all_eq xs v _ hv]
    field_simp
    ring

/-- A concrete one-dimensional feature vector used by the witnesses. -/
def vOne : Vec 1 := fun _ => (1 : ℚ)

/-- Witness for C1: two identical feature vectors, where the covariance
matrix read as symmetric is zero. -/
theorem C1_witness :
    ([vOne, vOne] ≠ ([] : List (Vec 1)))
    ∧ (∀ i j, readSym 1 (compute_covariance_matrix 1 [vOne, vOne]) i j = 0) :=
  ⟨by simp,
    (C1_compute_covariance_matrix_correct 1 [vOne, vOne] (by simp)).2.2 vOne
      (by intro x hx; simpa using hx)⟩

/-- Claim C9: `compute_covariance_matrix` divides by the sequence length
with no emptiness guard; under the non-emptiness precondition the
scaling factor `covScale n = -1/n` is well-defined: the denominator is
non-zero, the factor is non-zero, and it is a genuine inverse
(`covScale n * n = -1`). -/
theorem C9_covScale_welldefined (d : ℕ) (xs : List (Vec d)) (hxs : xs ≠ []) :
    (xs.length : ℚ) ≠ 0 ∧ covScale xs.length ≠ 0
      ∧ covScale xs.length * (xs.length : ℚ) = -1 := by
  have hn : (xs.length : ℚ) ≠ 0 := length_cast_ne_zero xs hxs
  refine ⟨hn, ?_, ?_⟩
  · unfold covScale
    exact div_ne_zero (by norm_num) hn
  · unfold covScale
    field_simp

/-- Witness for C9: a singleton sequence. -/
theorem C9_witness :
    ([vOne] ≠ ([] : List (Vec 1)))
    ∧ (((List.length [vOne] : ℕ) : ℚ) ≠ 0 ∧ covScale (List.length [vOne]) ≠ 0
        ∧ covScale (List.length [vOne]) * ((List.length [vOne] : ℕ) : ℚ) = -1) :=
  ⟨by simp, C9_covScale_welldefined 1 [vOne] (by simp)⟩

/-! ### Centered kernel matrix lemmas -/

lemma kernel_matrix_symm (n : ℕ) (f : Fin n → Fin n → ℚ) (i j : Fin n) :
    kernel_matrix n f i j = kernel_matrix n f j i := by
  unfold kernel_matrix
  rcases lt_trichotomy i j with h | h | h
  · rw [if_pos h.le, if_neg (not_le.mpr h)]
  · rw [h]
  · rw [if_neg (not_le.mpr h), if_pos h.le]

lemma centered_symm (n : ℕ) (f : Fin n → Fin n → ℚ) (i j : Fin n) :
    compute_centered_kernel_matrix n f i j = compute_centered_kernel_matrix n f j i := by
  unfold compute_centered_kernel_matrix
  rw [kernel_matrix_symm]
  ring

lemma sum_col_means (n : ℕ) (K : Mat n n) (hn : 0 < n) :
    ∑ j, col_means n K j = (n : ℚ) * grand_mean n K := by
  have hnQ : (n : ℚ) ≠ 0 := Nat.cast_ne_zero.mpr hn.ne'
  unfold col_means grand_mean
  rw [← Finset.sum_div, Finset.sum_comm]
  field_simp
  ring

lemma centered_row_sum (n : ℕ) (f : Fin n → Fin n → ℚ) (hn : 0 < n) (i : Fin n) :
    ∑ j, compute_centered_kernel_matrix n f i j = 0 := by
  have hnQ : (n : ℚ) ≠ 0 := Nat.cast_ne_zero.mpr hn.ne'
  unfold compute_centered_kernel_matrix
  rw [Finset.sum_sub_distrib, Finset.sum_sub_distrib, Finset.sum_add_distrib,
    Finset.sum_const, Finset.sum_const, Finset.card_univ, Fintype.card_fin,
    nsmul_eq_mul, nsmul_eq_mul, sum_col_means n (kernel_matrix n f) hn]
  have hsym : ∑ j, kernel_matrix n f i j = ∑ j, kernel_matrix n f j i :=
    Finset.sum_congr rfl (fun j _ => kernel_matrix_symm n f i j)
  have hmi : (n : ℚ) * col_means n (kernel_matrix n f) i = ∑ j, kernel_matrix n f j i := by
    unfold col_means
    field_simp
  rw [hsym, ← hmi]
  ring

lemma centered_col_sum (n : ℕ) (f : Fin n → Fin n → ℚ) (hn : 0 < n) (j : Fin n) :
    ∑ i, compute_centered_kernel_matrix n f i j = 0 := by
  have h : ∑ i, compute_centered_kernel_matrix n f i j
      = ∑ i, compute_centered_kernel_matrix n f j i :=
    Finset.sum_congr rfl (fun i _ => centered_symm n f i j)
  rw [h]
  exact centered_row_sum n f hn j

/-- Claim C2: for every non-empty data sequence and every kernel
callback, each row sum and each column sum of the double-centered
kernel matrix is zero (exactly, in exact arithmetic). -/
theorem C2_centered_kernel_row_col_sums_zero (n : ℕ) (f : Fin n → Fin n → ℚ)
    (hn : 0 < n) :
    (∀ i, ∑ j, compute_centered_kernel_matrix n f i j = 0)
    ∧ (∀ j, ∑ i, compute_centered_kernel_matrix n f i j = 0) :=
  ⟨centered_row_sum n f hn, centered_col_sum n f hn⟩

/-- A concrete non-symmetric kernel callback on two items, used by the
C2 witness. -/
def fTwo : Fin 2 → Fin 2 → ℚ := fun i j => (i : ℚ) + 2 * (j : ℚ) + 1

/-- Witness for C2: two items with a concrete (non-symmetric) kernel
callback. -/
theorem C2_witness :
    (0 < 2)
    ∧ ((∀ i, ∑ j, compute_centered_kernel_matrix 2 fTwo i j = 0)
        ∧ (∀ j, ∑ i, compute_centered_kernel_matrix 2 fTwo i j = 0)) :=
  ⟨by decide, C2_centered_kernel_row_col_sums_zero 2 fTwo (by decide)⟩

/-- Claim C7: for every data sequence and every kernel callback
(symmetric or not), the matrix returned by
`compute_centered_kernel_matrix` is symmetric. -/
theorem C7_centered_kernel_symmetric (n : ℕ) (f : Fin n → Fin n → ℚ) (i j : Fin n) :
    compute_centered_kernel_matrix n f i j = compute_centered_kernel_matrix n f j i :=
  centered_symm n f i j

/-! ### Projection lemmas -/

/-- Claim C6: when the feature dimension matches the projection
matrix's row count, `project` returns exactly one row per item, in
input order, with row `k` equal to `Pᵀ · xₖ` (entry `j` is
`∑ i, P i j * xₖ i`); the artifact `P` is only read (`projectRows` is a
pure function of `P`).  The returned row list is literally the map of
the transform over the input list, which fixes both the row count and
the order. -/
theorem C6_project_rows (r c : ℕ) (P : Mat r c) (xs : List (Vec r)) :
    projectRows r c r P xs
        = .embedding (xs.map (fun v => fun j => ∑ i, P i j * v i))
    ∧ (xs.map (fun v => fun j : Fin c => ∑ i, P i j * v i)).length = xs.length := by
  constructor
  · unfold projectRows
    rw [dif_pos rfl]
    exact rfl
  · simp

/-- A concrete 2×2 projection matrix for the C4 counterexample. -/
def Pex : Mat 2 2 := fun _ _ => (1 : ℚ)

/-- A concrete three-dimensional feature vector for the C4
counterexample. -/
def vEx3 : Vec 3 := fun _ => (1 : ℚ)

/-- Counterexample to claim C4 as stated: with a 2×2 projection matrix
and a feature-vector dimension of 3, `project` does not fail with a
dimension-mismatch error; the mismatched product fails Eigen's size
assertion (the process aborts). -/
theorem C4_counterexample :
    projectRows 2 2 3 Pex [vEx3] = .assertionFailure
    ∧ projectRows 2 2 3 Pex [vEx3] ≠ .dimensionMismatchError := by
  constructor
  · rfl
  · intro h
    rw [show projectRows 2 2 3 Pex [vEx3] = .assertionFailure from rfl] at h
    exact ProjectOutcome.noConfusion h

/-- Claim C4 as amended: `project` performs no dimension check; for any
call in which the feature-vector dimension differs from the projection
matrix's row count, the mismatched product fails Eigen's run-time size
assertion (modelled `assertionFailure`), and no `DimensionMismatchError`
is raised. -/
theorem C4_project_dimension_mismatch (r c dim : ℕ) (P : Mat r c) (xs : List (Vec dim))
    (h : dim ≠ r) :
    projectRows r c dim P xs = .assertionFailure
    ∧ projectRows r c dim P xs ≠ .dimensionMismatchError := by
  have he : projectRows r c dim P xs = .assertionFailure := by
    unfold projectRows
    rw [dif_neg h]
  exact ⟨he, by rw [he]; intro h2; exact ProjectOutcome.noConfusion h2⟩

/-- Witness for the amended C4: the concrete 3-vs-2 mismatch. -/
theorem C4_witness :
    ((3 : ℕ) ≠ 2)
    ∧ (projectRows 2 2 3 Pex [vEx3] = .assertionFailure
        ∧ projectRows 2 2 3 Pex [vEx3] ≠ .dimensionMismatchError) :=
  ⟨by decide, C4_project_dimension_mismatch 2 2 3 Pex [vEx3] (by decide)⟩

/-! ### Dispatcher lemmas -/

/-- The default value that the `//// defaults` block of `embed` would
write for each key (helper for reasoning about `applyDefaults`;
non-defaulted keys map to `none`). -/
def defaultValue (withArpack useCovertree : Bool) : ParamKey → Option ParamValue
  | .OUTPUT_FEATURE_VECTORS_ARE_COLUMNS => some (.boolVal false)
  | .EIGENSHIFT => some (.scalarVal (1 / 1000000000))
  | .KLLE_TRACE_SHIFT => some (.scalarVal (1 / 1000))
  | .CHECK_CONNECTIVITY => some (.boolVal true)
  | .EIGEN_EMBEDDING_METHOD =>
      some (.eigenMethodVal (if withArpack then .ARPACK else .EIGEN_DENSE_SELFADJOINT_SOLVER))
  | .TARGET_DIMENSION => some (.indexVal 2)
  | .NEIGHBORS_METHOD =>
      if useCovertree then some (.neighborsMethodVal .COVER_TREE) else none
  | _ => none

lemma putDefault_apply (k k' : ParamKey) (v : ParamValue) (p : ParametersMap) :
    putDefault k v p k' = if k' = k then (p k).or (some v) else p k' := by
  cases hpk : p k <;> by_cases he : k' = k <;>
    simp [putDefault, updateParam, hpk, he]

lemma applyDefaults_apply (a c : Bool) (p : ParametersMap) (k : ParamKey) :
    applyDefaults a c p k = (p k).or (defaultValue a c k) := by
  cases c <;> cases k <;> simp [applyDefaults, putDefault_apply, defaultValue]

lemma applyDefaults_idem (a c : Bool) (p : ParametersMap) :
    applyDefaults a c (applyDefaults a c p) = applyDefaults a c p := by
  funext k
  rw [applyDefaults_apply, applyDefaults_apply, Option.or_assoc, Option.or_self]

lemma applyDefaults_progress (a c : Bool) (p : ParametersMap) :
    applyDefaults a c p .PROGRESS_FUNCTION = p .PROGRESS_FUNCTION := by
  rw [applyDefaults_apply]
  simp [defaultValue]

lemma applyDefaults_cancel (a c : Bool) (p : ParametersMap) :
    applyDefaults a c p .CANCEL_FUNCTION = p .CANCEL_FUNCTION := by
  rw [applyDefaults_apply]
  simp [defaultValue]

/-- Claim C8: the defaulting step is idempotent — for any parameter map
holding a valid method selector, filling defaults twice yields the same
fully-populated configuration as filling them once (a default is
written only when the key is absent). -/
theorem C8_defaults_idempotent (a c : Bool) (p : ParametersMap) (m : TAPKEE_METHOD)
    (_hm : p .REDUCTION_METHOD = some (.methodVal m)) :
    applyDefaults a c (applyDefaults a c p) = applyDefaults a c p :=
  applyDefaults_idem a c p

/-- A parameter map holding only the PCA method selector. -/
def pPCA : ParametersMap := fun k =>
  if k = .REDUCTION_METHOD then some (.methodVal .PCA) else none

/-- Witness for C8: the PCA-only map. -/
theorem C8_witness :
    (pPCA .REDUCTION_METHOD = some (.methodVal .PCA))
    ∧ applyDefaults false false (applyDefaults false false pPCA)
        = applyDefaults false false pPCA :=
  ⟨rfl, C8_defaults_idempotent false false pPCA .PCA rfl⟩

/-- Claim C5: for every parameter map without the method selector,
`embed` fails with `missed_parameter_error`, regardless of the other
parameters, before any defaulting, callback access, or computation. -/
theorem C5_missing_method_error (a c : Bool) (p : ParametersMap)
    (h : p .REDUCTION_METHOD = none) :
    embedFront a c p = .error .missed_parameter_error := by
  simp only [embedFront, h]

/-- The entirely empty parameter map. -/
def pEmpty : ParametersMap := fun _ => none

/-- Witness for C5: the empty map. -/
theorem C5_witness :
    (pEmpty .REDUCTION_METHOD = none)
    ∧ embedFront false false pEmpty = .error .missed_parameter_error :=
  ⟨rfl, C5_missing_method_error false false pEmpty rfl⟩

/-- Whether the dispatch switch of `embed` routes the method value to an
implementation: every enumeration value except `UNKNOWN_METHOD`. -/
def handledByDispatch : TAPKEE_METHOD → Bool
  | .UNKNOWN_METHOD => false
  | _ => true

/-- A parameter map selecting the unrecognized method value. -/
def pUnknown : ParametersMap := fun k =>
  if k = .REDUCTION_METHOD then some (.methodVal .UNKNOWN_METHOD) else none

/-- Counterexample to claim C3 as stated: on the method value not
routed to any variant, `embed` throws `wrong_parameter_error`
("unknown method"), not `unsupported_method_error`. -/
theorem C3_counterexample :
    embedFront false false pUnknown = .error .wrong_parameter_error
    ∧ embedFront false false pUnknown ≠ .error .unsupported_method_error := by
  have h : embedFront false false pUnknown = .error .wrong_parameter_error := rfl
  refine ⟨h, fun h2 => ?_⟩
  rw [h] at h2
  exact TapkeeError.noConfusion (Except.error.inj h2)

/-- Claim C3 as amended: if the parameter map contains a
method-selector value of the correct enumerated type that is not routed
to any variant by the dispatch switch, `embed` fails with
`wrong_parameter_error` (the spec taxonomy's `WrongParameterValueError`)
— not `unsupported_method_error` — and returns no embedding.  The
progress/cancel entries, when present, are assumed castable, since a
bad one fails earlier with the raw cast error. -/
theorem C3_unknown_method_wrong_parameter (a c : Bool) (p : ParametersMap)
    (m : TAPKEE_METHOD)
    (hm : p .REDUCTION_METHOD = some (.methodVal m))
    (hunk : handledByDispatch m = false)
    (hp : ∀ v, p .PROGRESS_FUNCTION = some v → (castProgress v).isSome)
    (hc : ∀ v, p .CANCEL_FUNCTION = some v → (castCancel v).isSome) :
    embedFront a c p = .error .wrong_parameter_error := by
  have hm' : m = .UNKNOWN_METHOD := by
    cases m <;> first | rfl | simp [handledByDispatch] at hunk
  subst hm'
  simp only [embedFront, hm, castMethod, readProgress, readCancel,
    applyDefaults_progress, applyDefaults_cancel]
  rcases hpv : p .PROGRESS_FUNCTION with _ | v
  · rcases hcv : p .CANCEL_FUNCTION with _ | w
    · rfl
    · obtain ⟨g, hg⟩ := Option.isSome_iff_exists.mp (hc w hcv)
      simp [hg, dispatchMethod]
  · obtain ⟨g, hg⟩ := Option.isSome_iff_exists.mp (hp v hpv)
    rcases hcv : p .CANCEL_FUNCTION with _ | w
    · simp [hg, dispatchMethod]
    · obtain ⟨g2, hg2⟩ := Option.isSome_iff_exists.mp (hc w hcv)
      simp [hg, hg2, dispatchMethod]

/-- Witness for the amended C3: the map selecting `UNKNOWN_METHOD`. -/
theorem C3_witness :
    (pUnknown .REDUCTION_METHOD = some (.methodVal .UNKNOWN_METHOD))
    ∧ (handledByDispatch .UNKNOWN_METHOD = false)
    ∧ embedFront false false pUnknown = .error .wrong_parameter_error :=
  ⟨rfl, rfl,
    C3_unknown_method_wrong_parameter false false pUnknown .UNKNOWN_METHOD rfl rfl
      (fun v hv => by simp [pUnknown] at hv)
      (fun v hv => by simp [pUnknown] at hv)⟩

/-- Claim C10: only the method selector's failed cast is translated
into `wrong_parameter_type_error`; a `PROGRESS_FUNCTION` or
`CANCEL_FUNCTION` entry of the wrong type makes the raw `bad_any_cast`
escape instead of an error of the documented taxonomy. -/
theorem C10_cast_error_translation (a c : Bool) (p : ParametersMap) :
    (∀ v, p .REDUCTION_METHOD = some v → castMethod v = none →
        embedFront a c p = .error .wrong_parameter_type_error)
    ∧ (∀ m w, p .REDUCTION_METHOD = some (.methodVal m) →
        p .PROGRESS_FUNCTION = some w → castProgress w = none →
        embedFront a c p = .error .bad_any_cast)
    ∧ (∀ m w, p .REDUCTION_METHOD = some (.methodVal m) →
        (∀ v, p .PROGRESS_FUNCTION = some v → (castProgress v).isSome) →
        p .CANCEL_FUNCTION = some w → castCancel w = none →
        embedFront a c p = .error .bad_any_cast) := by
  refine ⟨fun v hv hcast => ?_, fun m w hm hw hcast => ?_,
    fun m w hm hp hw hcast => ?_⟩
  · simp only [embedFront, hv, hcast]
  · simp only [embedFront, hm, castMethod, readProgress, applyDefaults_progress, hw, hcast]
  · simp only [embedFront, hm, castMethod, readProgress, readCancel,
      applyDefaults_progress, applyDefaults_cancel, hw, hcast]
    rcases hpv : p .PROGRESS_FUNCTION with _ | v
    · rfl
    · obtain ⟨g, hg⟩ := Option.isSome_iff_exists.mp (hp v hpv)
      simp [hg]

/-- A parameter map with a valid method selector and a wrongly-typed
progress entry. -/
def pBadProgress : ParametersMap := fun k =>
  if k = .REDUCTION_METHOD then some (.methodVal .PCA)
  else if k = .PROGRESS_FUNCTION then some (.boolVal true) else none

/-- Witness for C10: the wrongly-typed progress entry produces the raw
`bad_any_cast`. -/
theorem C10_witness :
    (pBadProgress .REDUCTION_METHOD = some (.methodVal .PCA))
    ∧ (pBadProgress .PROGRESS_FUNCTION = some (.boolVal true))
    ∧ (castProgress (.boolVal true) = none)
    ∧ embedFront false false pBadProgress = .error .bad_any_cast :=
  ⟨rfl, rfl, rfl,
    (C10_cast_error_translation false false pBadProgress).2.1 .PCA (.boolVal true)
      rfl rfl rfl⟩

end Tapkee
